import Mathlib

/-!
Verification development for the fitlog-track-progress backend.

The definitions below are a shallow embedding of the repository's
authentication and goal-CRUD core:

* `src/api/middlewares/authMiddleware.js` (the authorization gate),
* `src/api/models/User.js` and `src/api/models/Goal.js` (the two schemas
  with their validators, setters, the pre-save password hook and the
  `toJSON` transforms),
* the auth controller (`signup`, `login`) and the goal controller
  (`getAllGoals`, `createGoal`, `updateGoal`, `deleteGoal`).

External libraries (bcrypt, jsonwebtoken, the MongoDB driver) are modelled
by executable definitions that realise their documented functional
semantics; each such model carries a doc comment saying exactly what it
stands for.  JavaScript strings handled character-by-character (the
`Authorization` header and token strings) are modelled as `List Char`;
other strings stay `String`.
-/

namespace FitLog

/-! ## Definitions -/

/-- JavaScript `s.split(sep)` for a one-character separator, on strings
modelled as lists of characters.  Empty pieces are kept and splitting the
empty string yields one empty piece, exactly as in JavaScript
(`"".split(' ')` is `[""]`). -/
def jsSplit (sep : Char) : List Char → List (List Char)
  | [] => [[]]
  | c :: rest =>
    if c = sep then [] :: jsSplit sep rest
    else
      match jsSplit sep rest with
      | [] => [[c]]
      | p :: ps => (c :: p) :: ps

/-- Inverse of `jsSplit`: interleave the separator between the pieces. -/
def joinSep (sep : Char) : List (List Char) → List Char
  | [] => []
  | [p] => p
  | p :: q :: ps => p ++ sep :: joinSep sep (q :: ps)

/-- The character for the decimal digit `d`. -/
def digitChar (d : Nat) : Char := Char.ofNat (48 + d)

/-- One step of decimal accumulation while parsing digits left to right. -/
def digitStep (a : Nat) (c : Char) : Nat := a * 10 + (c.toNat - 48)

/-- Fuel-driven rendering of `n` in decimal, most significant digit first;
`numeral` supplies enough fuel. -/
def numeralAux : Nat → Nat → List Char
  | 0, _ => []
  | fuel + 1, n =>
    if n = 0 then [] else numeralAux fuel (n / 10) ++ [digitChar (n % 10)]

/-- Decimal numeral of `n`, most significant digit first. -/
def numeral (n : Nat) : List Char :=
  if n = 0 then ['0'] else numeralAux (n + 1) n

/-- Parse a nonempty all-digit character list as a decimal natural. -/
def parseNat (cs : List Char) : Option Nat :=
  if cs.isEmpty then none
  else if cs.all Char.isDigit then some (cs.foldl digitStep 0)
  else none

/-- Strip leading and trailing whitespace from a character list. -/
def trimChars (cs : List Char) : List Char :=
  ((cs.dropWhile Char.isWhitespace).reverse.dropWhile Char.isWhitespace).reverse

/-- JavaScript `String.prototype.trim` / mongoose `trim: true`. -/
def jsTrim (s : String) : String := ⟨trimChars s.data⟩

/-- JavaScript `String.prototype.toLowerCase` / mongoose
`lowercase: true` (ASCII case folding). -/
def jsLower (s : String) : String := ⟨s.data.map Char.toLower⟩

/-- Model of `bcrypt.hash(plaintext, 10)` / the salted hash produced by
`bcrypt.genSalt(10)` + `bcrypt.hash`.  bcrypt's functional contract is that
the output is a self-describing string (`$2b$<cost>$<salt+digest>`) from
which `bcrypt.compare` can re-derive the comparison, with
`compare(p, hash(q)) = (p = q)`.  The model keeps exactly that contract
(determinism loses only the salt randomness, which no claim touches) and
preserves the essential fact that a hash string is never equal to its own
plaintext. -/
def bcryptHash (plain : String) : String := "$2b$10$" ++ plain

/-- Model of `bcrypt.compare(candidate, stored)`: recompute and compare. -/
def bcryptCompare (candidate stored : String) : Bool :=
  stored == bcryptHash candidate

/-- Model of `jwt.sign({ id }, secret, { expiresIn: '1h' })` issued at Unix
time `now` (seconds): a signed wire string carrying the claims
`{ id, iat = now, exp = now + 3600 }`.  The wire format is an injective
serialization; possession of a token matching the server secret models a
valid signature. -/
def jwtSign (id : Nat) (secret : List Char) (now : Nat) : List Char :=
  "jwt".toList ++ ';' :: numeral id ++ ';' :: numeral now
    ++ ';' :: numeral (now + 3600) ++ ';' :: secret

/-- Verification outcomes of `jwt.verify`: `TokenExpiredError` versus every
other verification error (`JsonWebTokenError`). -/
inductive JwtError where
  | expired
  | invalid
  deriving DecidableEq

/-- Model of `jwt.verify(token, secret)` evaluated at Unix time `now`:
checks the signature (here: the embedded secret against the server
secret), then the `exp` claim — jsonwebtoken reports `TokenExpiredError`
exactly when `now ≥ exp` — and returns the decoded `id` claim. -/
def jwtVerify (tok : List Char) (secret : List Char) (now : Nat) :
    Except JwtError Nat :=
  match jsSplit ';' tok with
  | [magic, idPart, iatPart, expPart, sec] =>
    if magic = "jwt".toList ∧ sec = secret then
      match parseNat idPart, parseNat iatPart, parseNat expPart with
      | some i, some _, some e =>
        if e ≤ now then .error .expired else .ok i
      | _, _, _ => .error .invalid
    else .error .invalid
  | _ => .error .invalid

/-- A persisted user document: `username` is stored trimmed (schema
`trim: true`), `email` lowercased (schema `lowercase: true`), and
`password` holds whatever string the pre-save hook left there. -/
structure StoredUser where
  id : Nat
  username : String
  email : String
  password : String
  deriving Repr, DecidableEq

/-- The raw key set of a user document as the driver stores it (schema
paths plus mongoose bookkeeping); the `password` path is present here. -/
def userRawFields (u : StoredUser) : List (String × String) :=
  [("_id", toString u.id), ("username", u.username), ("email", u.email),
   ("password", u.password), ("createdAt", ""), ("updatedAt", ""), ("__v", "0")]

/-- The schema's `toJSON.transform`: serialize every stored field, then
`delete ret.password`. -/
def userToJSON (u : StoredUser) : List (String × String) :=
  (userRawFields u).filter (fun kv => kv.1 ≠ "password")

/-- The mongoose pre-save hook on `User`: a (new or password-modified)
document has its `password` field replaced by `bcrypt.hash(password, salt)`
before it is persisted. -/
def preSaveHashUser (u : StoredUser) : StoredUser :=
  { u with password := bcryptHash u.password }

/-- A client-visible auth response: HTTP status plus the optional JSON
body fields the two handlers produce (`message`, `error`, `user`,
`token`).  The `user` projection is kept as an explicit key/value list so
that absence of a `password` key is a statement about the serialized
object, not about a Lean record type. -/
structure AuthResponse where
  status : Nat
  message : Option String := none
  error : Option String := none
  user : Option (List (String × String)) := none
  token : Option (List Char) := none
  deriving Repr, DecidableEq

/-- The signup regex `/^[^@\s]+@[^@\s]+\.[^@\s]+$/` on a trimmed email:
no whitespace anywhere, exactly one `@` with nonempty sides, and a `.` in
the interior of the part after `@`. -/
def emailRegexOk (cs : List Char) : Bool :=
  !cs.any Char.isWhitespace &&
    match jsSplit '@' cs with
    | [a, b] => !a.isEmpty && !b.isEmpty && (b.drop 1).dropLast.contains '.'
    | _ => false

/-- The `{ id, username, email }` projection returned by signup (201). -/
def signupUserProjection (u : StoredUser) : List (String × String) :=
  [("id", toString u.id), ("username", u.username), ("email", u.email)]

/-- The `{ id, username }` projection returned by login (200). -/
def loginUserProjection (u : StoredUser) : List (String × String) :=
  [("id", toString u.id), ("username", u.username)]

/-- The handlers' username validation message. -/
def usernameMsg : String :=
  "Username is required and must be at least 3 characters long"

/-- The signup handler's email validation message. -/
def emailMsg : String :=
  "Email is required and must be a valid email address"

/-- The handlers' password validation message. -/
def passwordMsg : String :=
  "Password is required and must be at least 8 characters long"

/-- Model of `authController.signup` over a credential store modelled as the list of
persisted users.  Body fields are `Option` because a JSON body may omit
them (`undefined`); JavaScript's `!field` check also fires on the empty
string, which the `.trim().length` checks subsume.  `freshId` stands for
the server-assigned id.  Returns the response and the store after the
request. -/
def signup (store : List StoredUser) (username email password : Option String)
    (freshId : Nat) : AuthResponse × List StoredUser :=
  match username with
  | none => ({ status := 400, message := some usernameMsg }, store)
  | some un =>
    if (jsTrim un).length < 3 then
      ({ status := 400, message := some usernameMsg }, store)
    else
      match email with
      | none => ({ status := 400, message := some emailMsg }, store)
      | some em =>
        if !emailRegexOk (trimChars em.data) then
          ({ status := 400, message := some emailMsg }, store)
        else
          match password with
          | none => ({ status := 400, message := some passwordMsg }, store)
          | some pw =>
            if (jsTrim pw).length < 8 then
              ({ status := 400, message := some passwordMsg }, store)
            else if store.any (fun su => su.username == un || su.email == em) then
              ({ status := 409, message := some "User already exists" }, store)
            else
              let newUser : StoredUser := preSaveHashUser
                { id := freshId, username := jsTrim un, email := jsLower em,
                  password := bcryptHash pw }
              ({ status := 201, message := some "User created successfully",
                 user := some (signupUserProjection newUser) },
               store ++ [newUser])

/-- Model of `authController.login`: validate, look the user up by username, compare
the password via `User.comparePassword` (bcrypt), then issue a 1-hour JWT
for the user's id.  `now` is the issuance time passed to the token model. -/
def login (store : List StoredUser) (username password : Option String)
    (secret : List Char) (now : Nat) : AuthResponse :=
  match username with
  | none => { status := 400, message := some usernameMsg }
  | some un =>
    if (jsTrim un).length < 3 then
      { status := 400, message := some usernameMsg }
    else
      match password with
      | none => { status := 400, message := some passwordMsg }
      | some pw =>
        if (jsTrim pw).length < 8 then
          { status := 400, message := some passwordMsg }
        else
          match store.find? (fun su => su.username == un) with
          | none => { status := 401, message := some "Invalid credentials" }
          | some user =>
            if !bcryptCompare pw user.password then
              { status := 401, message := some "Invalid credentials" }
            else
              { status := 200,
                user := some (loginUserProjection user),
                token := some (jwtSign user.id secret now) }

/-- The signup handler's `catch` boundary: a store-layer fault carrying
message `e` short-circuits the handler into
`res.status(500).json({ message: 'Internal Server Error', error: error.message })`. -/
def signupWithFault (store : List StoredUser)
    (username email password : Option String) (freshId : Nat)
    (fault : Option String) : AuthResponse × List StoredUser :=
  match fault with
  | some e => ({ status := 500, message := some "Internal Server Error",
                 error := some e }, store)
  | none => signup store username email password freshId

/-- The login handler's `catch` boundary, same shape as `signupWithFault`. -/
def loginWithFault (store : List StoredUser) (username password : Option String)
    (secret : List Char) (now : Nat) (fault : Option String) : AuthResponse :=
  match fault with
  | some e => { status := 500, message := some "Internal Server Error",
                error := some e }
  | none => login store username password secret now

/-- Outcome of the middleware: either it answers the request itself
(`respond`) or it calls `next()` with `req.user = { id }` (`proceed`),
handing control to the downstream resource handler. -/
inductive MwResult where
  | respond (status : Nat) (message : String)
  | proceed (userId : Nat)
  deriving Repr, DecidableEq

/-- Model of `authMiddleware.verifyToken`.  The `Authorization` header is
`none` when absent; JavaScript's `!authHeader` is also true for the
present-but-empty header, so that case takes the same branch.  The header
is split on spaces, checked for the exact `Bearer <token>` shape, and the
token part is handed to `jwt.verify`, whose two error classes map to the
two 401 messages. -/
def verifyToken (authHeader : Option (List Char)) (secret : List Char)
    (now : Nat) : MwResult :=
  match authHeader with
  | none => .respond 401 "No token provided"
  | some h =>
    if h = [] then .respond 401 "No token provided"
    else
      let tokenParts := jsSplit ' ' h
      if tokenParts.length ≠ 2 ∨ tokenParts.headD [] ≠ "Bearer".toList then
        .respond 401 "Invalid token format"
      else
        match jwtVerify (tokenParts.getD 1 []) secret now with
        | .error .expired => .respond 401 "Token expired"
        | .error .invalid => .respond 401 "Invalid token"
        | .ok id => .proceed id

/-- A header has the exact `Bearer <token>` shape demanded by the spec
when it is literally `"Bearer "` followed by a token without spaces. -/
def isBearerHeader (h : List Char) : Prop :=
  ∃ tok : List Char, h = "Bearer".toList ++ ' ' :: tok ∧ ' ' ∉ tok

/-- A progress entry: `{ date, value }` (dates as epoch numbers, values as
numbers). -/
structure ProgressEntry where
  date : Int
  value : Int
  deriving Repr, DecidableEq

/-- A persisted goal document.  `name` and `description` are stored
trimmed (schema `trim: true`); `description` is `none` for the `null`
default; timestamps are server-assigned epoch numbers. -/
structure Goal where
  _id : Nat
  userId : Nat
  name : String
  description : Option String
  type : String
  startDate : Int
  endDate : Int
  targetValue : Int
  unit : String
  progress : List ProgressEntry
  createdAt : Int
  updatedAt : Int
  deriving Repr, DecidableEq

/-- The `enum` validator on `GoalSchema.type`. -/
def goalTypeEnum : List String :=
  ["weight loss", "muscle gain", "endurance", "other"]

/-- The goal fields a request body may carry; `none` models an absent
(`undefined`) field. -/
structure GoalPayload where
  name : Option String := none
  description : Option String := none
  type : Option String := none
  startDate : Option Int := none
  endDate : Option Int := none
  targetValue : Option Int := none
  unit : Option String := none
  deriving Repr, DecidableEq

/-- The validated, setter-transformed values of the seven mutable goal
fields, as the schema stores them. -/
structure GoalFields where
  name : String
  description : Option String
  type : String
  startDate : Int
  endDate : Int
  targetValue : Int
  unit : String
  deriving Repr, DecidableEq

/-- The `maxlength: 200` validator on the optional `description`. -/
def descLenOk : Option String → Bool
  | some d => decide ((jsTrim d).length ≤ 200)
  | none => true

/-- Model of `GoalSchema` validation of a request payload (the checks run by
`newGoal.validate()` and by `runValidators: true` on update): the six
required fields must be present, `name` must be 3–50 characters after
trimming, `description` at most 200 after trimming when present, and
`type` must come from the schema's `enum`. -/
def validateGoal (p : GoalPayload) : Option GoalFields :=
  match p.name, p.type, p.startDate, p.endDate, p.targetValue, p.unit with
  | some n, some t, some sd, some ed, some tv, some u =>
    if 3 ≤ (jsTrim n).length ∧ (jsTrim n).length ≤ 50 ∧ t ∈ goalTypeEnum ∧
        descLenOk p.description = true then
      some { name := jsTrim n, description := p.description.map jsTrim,
             type := t, startDate := sd, endDate := ed, targetValue := tv,
             unit := u }
    else none
  | _, _, _, _, _, _ => none

/-- A client-visible goal-route response: a JSON array of goals (list),
a single goal document, a `{ message }` object, a bare `204` send, or the
`{ message, error }` object of the `catch` branches. -/
inductive GoalResult where
  | goals (status : Nat) (gs : List Goal)
  | goal (status : Nat) (g : Goal)
  | message (status : Nat) (msg : String)
  | empty (status : Nat)
  | serverError (message : String) (error : String)
  deriving Repr, DecidableEq

/-- Model of `goalController.getAllGoals`: `Goal.find({ userId })`, 404 when the
result is empty, 200 with the array otherwise. -/
def getAllGoals (store : List Goal) (userId : Nat) : GoalResult :=
  let goals := store.filter (fun g => g.userId == userId)
  if goals.isEmpty then .message 404 "No goals found for this user"
  else .goals 200 goals

/-- The document a successful create persists: the validated fields, the
authenticated owner, the server-assigned id, an empty `progress` array
and fresh timestamps. -/
def newGoalDoc (userId freshId : Nat) (now : Int) (f : GoalFields) : Goal :=
  { _id := freshId, userId := userId, name := f.name,
    description := f.description, type := f.type,
    startDate := f.startDate, endDate := f.endDate,
    targetValue := f.targetValue, unit := f.unit, progress := [],
    createdAt := now, updatedAt := now }

/-- Model of `goalController.createGoal`: build the document from the seven body
fields plus the authenticated `userId`, `validate()`, `save()`.  A
validation failure answers 400 and persists nothing.  `freshId` and `now`
stand for the server-assigned id and timestamp. -/
def createGoal (store : List Goal) (userId : Nat) (body : GoalPayload)
    (freshId : Nat) (now : Int) : GoalResult × List Goal :=
  match validateGoal body with
  | none => (.message 400 "Invalid input data", store)
  | some f =>
    (.goal 201 (newGoalDoc userId freshId now f),
     store ++ [newGoalDoc userId freshId now f])

/-- The `$set` a goal update applies: the seven mutable fields from the
validated payload (mongoose drops an `undefined` `description`, leaving
the stored value), plus the automatic `updatedAt` bump; `_id`, `userId`,
`progress` and `createdAt` are not part of the update document. -/
def applyUpdate (g : Goal) (f : GoalFields) (now : Int) : Goal :=
  { g with name := f.name,
           description := match f.description with
             | some d => some d
             | none => g.description,
           type := f.type, startDate := f.startDate, endDate := f.endDate,
           targetValue := f.targetValue, unit := f.unit, updatedAt := now }

/-- Model of `Goal.findOneAndUpdate({ _id, userId }, fields, { new: true })` on the
store: rewrite the first document matching both the id and the owner and
return it (post-update, `new: true`); `none` and the unchanged store when
nothing matches. -/
def findOneAndUpdate (store : List Goal) (gid uid : Nat) (f : GoalFields)
    (now : Int) : Option Goal × List Goal :=
  match store with
  | [] => (none, [])
  | g :: rest =>
    if g._id = gid ∧ g.userId = uid then
      (some (applyUpdate g f now), applyUpdate g f now :: rest)
    else
      ((findOneAndUpdate rest gid uid f now).1,
       g :: (findOneAndUpdate rest gid uid f now).2)

/-- Model of `Goal.findOneAndDelete({ _id, userId })` on the store. -/
def findOneAndDelete (store : List Goal) (gid uid : Nat) :
    Option Goal × List Goal :=
  match store with
  | [] => (none, [])
  | g :: rest =>
    if g._id = gid ∧ g.userId = uid then (some g, rest)
    else
      ((findOneAndDelete rest gid uid).1,
       g :: (findOneAndDelete rest gid uid).2)

/-- Model of `goalController.updateGoal`: `runValidators` rejects a bad update
document with 400 before the store is touched; otherwise the owner-scoped
`findOneAndUpdate` answers 404 on no match and 200 with the updated
record on success. -/
def updateGoal (store : List Goal) (userId gid : Nat) (body : GoalPayload)
    (now : Int) : GoalResult × List Goal :=
  match validateGoal body with
  | none => (.message 400 "Invalid input data", store)
  | some f =>
    match findOneAndUpdate store gid userId f now with
    | (none, s) => (.message 404 "Goal not found", s)
    | (some g, s) => (.goal 200 g, s)

/-- Model of `goalController.deleteGoal`: owner-scoped `findOneAndDelete`, 404 on
no match, bare 204 on success. -/
def deleteGoal (store : List Goal) (userId gid : Nat) :
    GoalResult × List Goal :=
  match findOneAndDelete store gid userId with
  | (none, s) => (.message 404 "Goal not found", s)
  | (some _, s) => (.empty 204, s)

/-- The `getAllGoals` `catch` boundary: a store-layer fault with message
`e` produces `res.status(500).json({ message: 'Internal Server Error',
error: error.message })`. -/
def getAllGoalsWithFault (store : List Goal) (userId : Nat)
    (fault : Option String) : GoalResult :=
  match fault with
  | some e => .serverError "Internal Server Error" e
  | none => getAllGoals store userId

/-! ## Theorems -/

theorem jsSplit_ne_nil (sep : Char) (cs : List Char) : jsSplit sep cs ≠ [] := by
  induction cs with
  | nil => simp [jsSplit]
  | cons c rest ih =>
    simp only [jsSplit]
    split
    · simp
    · cases h : jsSplit sep rest <;> simp

theorem jsSplit_no_sep (sep : Char) (cs : List Char) (h : sep ∉ cs) :
    jsSplit sep cs = [cs] := by
  induction cs with
  | nil => rfl
  | cons c rest ih =>
    simp only [List.mem_cons, not_or] at h
    simp only [jsSplit]
    rw [if_neg (fun hc => h.1 hc.symm), ih h.2]

theorem jsSplit_append (sep : Char) (a b : List Char) (ha : sep ∉ a) :
    jsSplit sep (a ++ sep :: b) = a :: jsSplit sep b := by
  induction a with
  | nil => simp [jsSplit]
  | cons c a' ih =>
    simp only [List.mem_cons, not_or] at ha
    simp only [List.cons_append, jsSplit, List.append_eq]
    rw [if_neg (fun hc => ha.1 hc.symm), ih ha.2]

theorem jsSplit_parts (sep : Char) (cs : List Char) :
    ∀ p ∈ jsSplit sep cs, sep ∉ p := by
  induction cs with
  | nil =>
    intro p hp
    simp only [jsSplit, List.mem_singleton] at hp
    simp [hp]
  | cons c rest ih =>
    intro p hp
    simp only [jsSplit] at hp
    by_cases hc : c = sep
    · rw [if_pos hc] at hp
      rcases List.mem_cons.mp hp with h1 | h2
      · simp [h1]
      · exact ih p h2
    · rw [if_neg hc] at hp
      cases hsp : jsSplit sep rest with
      | nil => exact absurd hsp (jsSplit_ne_nil sep rest)
      | cons q qs =>
        rw [hsp] at hp
        rcases List.mem_cons.mp hp with h1 | h2
        · subst h1
          intro hmem
          rcases List.mem_cons.mp hmem with h3 | h4
          · exact hc h3.symm
          · exact ih q (hsp ▸ List.mem_cons_self q qs) h4
        · exact ih p (hsp ▸ List.mem_cons_of_mem q h2)

theorem joinSep_jsSplit (sep : Char) (cs : List Char) :
    joinSep sep (jsSplit sep cs) = cs := by
  induction cs with
  | nil => rfl
  | cons c rest ih =>
    simp only [jsSplit]
    by_cases hc : c = sep
    · rw [if_pos hc]
      cases hsp : jsSplit sep rest with
      | nil => exact absurd hsp (jsSplit_ne_nil sep rest)
      | cons q qs =>
        rw [hsp] at ih
        simp only [joinSep, List.nil_append]
        rw [ih, hc]
    · rw [if_neg hc]
      cases hsp : jsSplit sep rest with
      | nil => exact absurd hsp (jsSplit_ne_nil sep rest)
      | cons q qs =>
        rw [hsp] at ih
        cases qs with
        | nil =>
          simp only [joinSep] at ih ⊢
          rw [ih]
        | cons r rs =>
          simp only [joinSep, List.cons_append] at ih ⊢
          rw [ih]

/-- A split with exactly two pieces recovers the source string as
`a ++ sep :: b` with the separator in neither piece. -/
theorem jsSplit_eq_pair (sep : Char) (cs a b : List Char)
    (h : jsSplit sep cs = [a, b]) :
    cs = a ++ sep :: b ∧ sep ∉ a ∧ sep ∉ b := by
  refine ⟨?_, ?_, ?_⟩
  · have hj := joinSep_jsSplit sep cs
    rw [h] at hj
    simpa [joinSep] using hj.symm
  · exact jsSplit_parts sep cs a (h ▸ List.mem_cons_self a [b])
  · exact jsSplit_parts sep cs b (h ▸ List.mem_cons_of_mem a (List.mem_cons_self b []))

theorem digitChar_isDigit (d : Nat) (h : d < 10) : (digitChar d).isDigit = true := by
  interval_cases d <;> decide

theorem digitChar_toNat (d : Nat) (h : d < 10) : (digitChar d).toNat = 48 + d := by
  interval_cases d <;> decide

theorem isDigit_ne_semi_space (c : Char) (h : c.isDigit = true) :
    c ≠ ';' ∧ c ≠ ' ' := by
  constructor <;> rintro rfl <;> exact absurd h (by decide)

theorem numeralAux_all_digits (fuel : Nat) :
    ∀ n, (numeralAux fuel n).all Char.isDigit = true := by
  induction fuel with
  | zero => intro n; rfl
  | succ f ih =>
    intro n
    simp only [numeralAux]
    split
    · rfl
    · rw [List.all_append, Bool.and_eq_true]
      exact ⟨ih (n / 10),
        by simp [digitChar_isDigit (n % 10) (Nat.mod_lt n (by norm_num))]⟩

theorem numeralAux_ne_nil (fuel n : Nat) (h0 : 0 < n) (hf : n ≤ fuel) :
    numeralAux fuel n ≠ [] := by
  cases fuel with
  | zero => omega
  | succ f =>
    simp only [numeralAux]
    rw [if_neg (by omega)]
    simp

theorem numeralAux_foldl (fuel : Nat) :
    ∀ n a, n ≤ fuel →
      (numeralAux fuel n).foldl digitStep a =
        a * 10 ^ (numeralAux fuel n).length + n := by
  induction fuel with
  | zero =>
    intro n a h
    have : n = 0 := by omega
    subst this
    simp [numeralAux]
  | succ f ih =>
    intro n a h
    by_cases h0 : n = 0
    · subst h0; simp [numeralAux]
    · have hdiv : n / 10 ≤ f := by
        have := Nat.div_lt_self (Nat.pos_of_ne_zero h0) (by norm_num : 1 < 10)
        omega
      simp only [numeralAux, if_neg h0]
      rw [List.foldl_append, ih (n / 10) a hdiv]
      simp only [List.foldl_cons, List.foldl_nil, digitStep,
        List.length_append, List.length_singleton]
      rw [digitChar_toNat (n % 10) (Nat.mod_lt n (by norm_num))]
      have hmod : 48 + n % 10 - 48 = n % 10 := by omega
      rw [hmod, pow_succ]
      have := Nat.div_add_mod n 10
      ring_nf
      omega

theorem numeral_all_digits (n : Nat) : ∀ c ∈ numeral n, c.isDigit = true := by
  intro c hc
  unfold numeral at hc
  split at hc
  · simp only [List.mem_singleton] at hc
    subst hc; decide
  · exact List.all_eq_true.mp (numeralAux_all_digits (n + 1) n) c hc

theorem numeral_no_semi (n : Nat) : ';' ∉ numeral n := by
  intro h
  exact (isDigit_ne_semi_space ';' (numeral_all_digits n ';' h)).1 rfl

theorem numeral_no_space (n : Nat) : ' ' ∉ numeral n := by
  intro h
  exact (isDigit_ne_semi_space ' ' (numeral_all_digits n ' ' h)).2 rfl

theorem parseNat_numeral (n : Nat) : parseNat (numeral n) = some n := by
  by_cases h0 : n = 0
  · subst h0; decide
  · have hne : numeralAux (n + 1) n ≠ [] :=
      numeralAux_ne_nil (n + 1) n (Nat.pos_of_ne_zero h0) (by omega)
    simp only [numeral, if_neg h0, parseNat]
    rw [if_neg (by simpa [List.isEmpty_iff] using hne)]
    rw [if_pos (numeralAux_all_digits (n + 1) n)]
    rw [numeralAux_foldl (n + 1) n 0 (by omega)]
    simp

theorem bcryptCompare_hash (p : String) : bcryptCompare p (bcryptHash p) = true := by
  simp [bcryptCompare]

/-- A bcrypt hash is strictly longer than its plaintext, hence never equal
to it; this is what makes double-hashing observable. -/
theorem bcryptHash_ne (p : String) : bcryptHash p ≠ p := by
  intro h
  have h7 : ("$2b$10$" : String).length = 7 := by decide
  have hlen : (bcryptHash p).length = 7 + p.length := by
    simp [bcryptHash, String.length_append, h7]
  rw [h] at hlen
  omega

theorem jwtSign_no_space (id : Nat) (secret : List Char) (now : Nat)
    (hs : ' ' ∉ secret) : ' ' ∉ jwtSign id secret now := by
  intro h
  unfold jwtSign at h
  rcases List.mem_append.mp h with h | h
  · rcases List.mem_append.mp h with h | h
    · rcases List.mem_append.mp h with h | h
      · rcases List.mem_append.mp h with h | h
        · exact absurd h (by decide)
        · rcases List.mem_cons.mp h with h | h
          · exact absurd h (by decide)
          · exact numeral_no_space id h
      · rcases List.mem_cons.mp h with h | h
        · exact absurd h (by decide)
        · exact numeral_no_space now h
    · rcases List.mem_cons.mp h with h | h
      · exact absurd h (by decide)
      · exact numeral_no_space (now + 3600) h
  · rcases List.mem_cons.mp h with h | h
    · exact absurd h (by decide)
    · exact hs h

theorem jsSplit_jwtSign (id : Nat) (secret : List Char) (now : Nat)
    (hs : ';' ∉ secret) :
    jsSplit ';' (jwtSign id secret now) =
      ["jwt".toList, numeral id, numeral now, numeral (now + 3600), secret] := by
  unfold jwtSign
  rw [show "jwt".toList ++ ';' :: numeral id ++ ';' :: numeral now
        ++ ';' :: numeral (now + 3600) ++ ';' :: secret
      = "jwt".toList ++ ';' :: (numeral id ++ ';' :: (numeral now
        ++ ';' :: (numeral (now + 3600) ++ ';' :: secret))) by
    simp [List.append_assoc]]
  rw [jsSplit_append ';' _ _ (by decide)]
  rw [jsSplit_append ';' _ _ (numeral_no_semi id)]
  rw [jsSplit_append ';' _ _ (numeral_no_semi now)]
  rw [jsSplit_append ';' _ _ (numeral_no_semi (now + 3600))]
  rw [jsSplit_no_sep ';' secret hs]

/-- Verifying a freshly signed token against the same secret succeeds
before `exp` and reports `expired` from `exp` on. -/
theorem jwtVerify_jwtSign (id : Nat) (secret : List Char) (iat now : Nat)
    (hs : ';' ∉ secret) :
    jwtVerify (jwtSign id secret iat) secret now =
      if iat + 3600 ≤ now then .error .expired else .ok id := by
  unfold jwtVerify
  rw [jsSplit_jwtSign id secret iat hs]
  simp [parseNat_numeral]

/-- The gate's format check accepts exactly the headers of `Bearer <token>`
shape: the code's `split(' ').length === 2 && parts[0] === 'Bearer'` test
coincides with the spec's wording. -/
theorem bearer_shape_iff (h : List Char) :
    ((jsSplit ' ' h).length = 2 ∧ (jsSplit ' ' h).headD [] = "Bearer".toList)
      ↔ isBearerHeader h := by
  constructor
  · rintro ⟨hlen, hhead⟩
    cases hsp : jsSplit ' ' h with
    | nil => exact absurd hsp (jsSplit_ne_nil ' ' h)
    | cons a rest =>
      cases rest with
      | nil => rw [hsp] at hlen; simp at hlen
      | cons b rest' =>
        cases rest' with
        | nil =>
          rw [hsp] at hhead
          simp only [List.headD_cons] at hhead
          obtain ⟨hcs, _, hb⟩ := jsSplit_eq_pair ' ' h a b hsp
          exact ⟨b, by rw [hcs, hhead], hb⟩
        | cons c rest'' => rw [hsp] at hlen; simp at hlen
  · rintro ⟨tok, rfl, htok⟩
    rw [jsSplit_append ' ' _ _ (by decide), jsSplit_no_sep ' ' tok htok]
    exact ⟨rfl, rfl⟩

/-- Passing a well-shaped header through the gate reaches `jwt.verify` on
exactly the carried token. -/
theorem verifyToken_bearer (tok secret : List Char) (now : Nat)
    (htok : ' ' ∉ tok) :
    verifyToken (some ("Bearer".toList ++ ' ' :: tok)) secret now =
      match jwtVerify tok secret now with
      | .error .expired => .respond 401 "Token expired"
      | .error .invalid => .respond 401 "Invalid token"
      | .ok id => .proceed id := by
  have hsplit : jsSplit ' ' ("Bearer".toList ++ ' ' :: tok)
      = ["Bearer".toList, tok] := by
    rw [jsSplit_append ' ' _ _ (by decide), jsSplit_no_sep ' ' tok htok]
  simp only [verifyToken, hsplit]
  rw [if_neg (by simp), if_neg (by simp)]
  rfl

theorem validateGoal_type_mem (p : GoalPayload) (f : GoalFields)
    (h : validateGoal p = some f) : f.type ∈ goalTypeEnum := by
  unfold validateGoal at h
  split at h
  · split at h
    · rename_i hcond
      cases h
      exact hcond.2.2.1
    · exact absurd h (by simp)
  all_goals exact absurd h (by simp)

theorem validateGoal_bad_type (p : GoalPayload) (t : String)
    (ht : p.type = some t) (hmem : t ∉ goalTypeEnum) :
    validateGoal p = none := by
  rcases p with ⟨pn, pd, pt, psd, ped, ptv, pu⟩
  simp only at ht
  subst ht
  cases pn <;> cases psd <;> cases ped <;> cases ptv <;> cases pu <;>
    simp [validateGoal, hmem]

theorem validateGoal_no_type (p : GoalPayload) (ht : p.type = none) :
    validateGoal p = none := by
  rcases p with ⟨pn, pd, pt, psd, ped, ptv, pu⟩
  simp only at ht
  subst ht
  cases pn <;> cases psd <;> cases ped <;> cases ptv <;> cases pu <;>
    simp [validateGoal]

theorem updateGoal_valid (store : List Goal) (uid gid : Nat) (p : GoalPayload)
    (f : GoalFields) (now : Int) (hv : validateGoal p = some f) :
    updateGoal store uid gid p now =
      match findOneAndUpdate store gid uid f now with
      | (none, s) => (.message 404 "Goal not found", s)
      | (some g, s) => (.goal 200 g, s) := by
  unfold updateGoal
  rw [hv]

theorem findOneAndUpdate_no_match (store : List Goal) (gid uid : Nat)
    (f : GoalFields) (now : Int)
    (h : ∀ g ∈ store, ¬(g._id = gid ∧ g.userId = uid)) :
    findOneAndUpdate store gid uid f now = (none, store) := by
  induction store with
  | nil => rfl
  | cons g rest ih =>
    simp only [findOneAndUpdate]
    rw [if_neg (h g (List.mem_cons_self g rest)),
      ih (fun g' hg' => h g' (List.mem_cons_of_mem g hg'))]

theorem findOneAndDelete_no_match (store : List Goal) (gid uid : Nat)
    (h : ∀ g ∈ store, ¬(g._id = gid ∧ g.userId = uid)) :
    findOneAndDelete store gid uid = (none, store) := by
  induction store with
  | nil => rfl
  | cons g rest ih =>
    simp only [findOneAndDelete]
    rw [if_neg (h g (List.mem_cons_self g rest)),
      ih (fun g' hg' => h g' (List.mem_cons_of_mem g hg'))]

theorem findOneAndUpdate_frame (store : List Goal) (gid uid : Nat)
    (f : GoalFields) (now : Int) :
    ∀ g' ∈ (findOneAndUpdate store gid uid f now).2, ∃ g ∈ store,
      g'._id = g._id ∧ g'.userId = g.userId ∧ g'.progress = g.progress ∧
      g'.createdAt = g.createdAt := by
  induction store with
  | nil =>
    intro g' hg'
    simp [findOneAndUpdate] at hg'
  | cons g0 rest ih =>
    intro g' hg'
    simp only [findOneAndUpdate] at hg'
    split at hg'
    · rcases List.mem_cons.mp hg' with h1 | h2
      · exact ⟨g0, List.mem_cons_self g0 rest, by simp [h1, applyUpdate]⟩
      · exact ⟨g', List.mem_cons_of_mem g0 h2, by simp⟩
    · rcases List.mem_cons.mp hg' with h1 | h2
      · exact ⟨g0, List.mem_cons_self g0 rest, by simp [h1]⟩
      · rcases ih g' h2 with ⟨g, hgmem, hprops⟩
        exact ⟨g, List.mem_cons_of_mem g0 hgmem, hprops⟩

theorem findOneAndUpdate_fields (store : List Goal) (gid uid : Nat)
    (f : GoalFields) (now : Int) (g : Goal)
    (h : (findOneAndUpdate store gid uid f now).1 = some g) :
    g.name = f.name ∧ (f.description.isSome → g.description = f.description) ∧
    g.type = f.type ∧ g.startDate = f.startDate ∧ g.endDate = f.endDate ∧
    g.targetValue = f.targetValue ∧ g.unit = f.unit := by
  induction store with
  | nil => exact absurd h (by simp [findOneAndUpdate])
  | cons g0 rest ih =>
    simp only [findOneAndUpdate] at h
    split at h
    · have hg : g = applyUpdate g0 f now := by
        simpa using h.symm
      subst hg
      refine ⟨rfl, ?_, rfl, rfl, rfl, rfl, rfl⟩
      intro hsome
      rcases Option.isSome_iff_exists.mp hsome with ⟨d, hd⟩
      simp [applyUpdate, hd]
    · exact ih h

theorem signup_user_shape (store : List StoredUser) (un em pw : Option String)
    (fid : Nat) :
    (signup store un em pw fid).1.user = none ∨
    ∃ u, (signup store un em pw fid).1.user = some (signupUserProjection u) := by
  unfold signup
  split
  · exact .inl rfl
  · split
    · exact .inl rfl
    · split
      · exact .inl rfl
      · split
        · exact .inl rfl
        · split
          · exact .inl rfl
          · split
            · exact .inl rfl
            · split
              · exact .inl rfl
              · exact .inr ⟨_, rfl⟩

theorem login_user_shape (store : List StoredUser) (un pw : Option String)
    (secret : List Char) (now : Nat) :
    (login store un pw secret now).user = none ∨
    ∃ u, (login store un pw secret now).user = some (loginUserProjection u) := by
  unfold login
  split
  · exact .inl rfl
  · split
    · exact .inl rfl
    · split
      · exact .inl rfl
      · split
        · exact .inl rfl
        · split
          · exact .inl rfl
          · split
            · exact .inl rfl
            · exact .inr ⟨_, rfl⟩

theorem signupUserProjection_keys (u : StoredUser) :
    (signupUserProjection u).map Prod.fst = ["id", "username", "email"] := rfl

theorem loginUserProjection_keys (u : StoredUser) :
    (loginUserProjection u).map Prod.fst = ["id", "username"] := rfl

/-- The general double-hashing fact behind the signup/login bug: comparing
a plaintext against the hash of its own hash always fails, because a
bcrypt hash never equals its plaintext. -/
theorem bcryptCompare_double_hash (p : String) :
    bcryptCompare p (bcryptHash (bcryptHash p)) = false := by
  rw [bcryptCompare, beq_eq_false_iff_ne]
  intro h
  have hlen := congrArg String.length h
  have h7 : ("$2b$10$" : String).length = 7 := by decide
  simp [bcryptHash, String.length_append, h7] at hlen

/-- C1.  The claim says a valid signup followed by a login with the same
password verifies the stored hash and returns 200.  The code violates
this for every user: `authController.signup` hashes the password with
`bcrypt.hash(password, 10)` and the `UserSchema.pre('save')` hook then
hashes the already-hashed string again (a new document always has its
`password` path modified), so `comparePassword` compares the plaintext
against `bcrypt(bcrypt(password))` and login answers 401.  Evaluated here
at the spec's own scenario input `signup("ann","ann@x.com","password1")`
followed by `login("ann","password1")`. -/
theorem claim1_signup_then_login_rejected :
    (signup [] (some "ann") (some "ann@x.com") (some "password1") 1).1.status = 201
  ∧ (signup [] (some "ann") (some "ann@x.com") (some "password1") 1).2 =
      [{ id := 1, username := "ann", email := "ann@x.com",
         password := bcryptHash (bcryptHash "password1") }]
  ∧ login (signup [] (some "ann") (some "ann@x.com") (some "password1") 1).2
      (some "ann") (some "password1") ['s'] 0 =
      { status := 401, message := some "Invalid credentials" } := by
  refine ⟨by decide, by decide, by decide⟩

/-- C7 counterexample.  The claim says a handler's 500 response carries
only a safe generic message and never raw internal error details; but the
`catch` blocks of `getAllGoals` (and of signup/login/create/update/delete)
answer `{ message: 'Internal Server Error', error: error.message }`, so
the raw driver error message string is part of the client-visible body. -/
theorem claim7_counterexample :
    getAllGoalsWithFault [] 1
        (some "E11000 duplicate key error collection: fitness_app.goals")
      = .serverError "Internal Server Error"
          "E11000 duplicate key error collection: fitness_app.goals"
  ∧ ("E11000 duplicate key error collection: fitness_app.goals" : String)
      ≠ "Internal Server Error" := by
  exact ⟨rfl, by decide⟩

/-- C7 amended.  For every store-layer fault in the signup, login or
goal-list handler, the client-visible 500 response consists of the generic
`'Internal Server Error'` message *plus* an `error` field holding the
internal error's own message string — nothing else (no stack traces, no
further driver state) is included. -/
theorem claim7_fault_response_amended (store : List Goal)
    (ustore : List StoredUser) (uid : Nat) (un em pw : Option String)
    (fid : Nat) (secret : List Char) (now : Nat) (e : String) :
    getAllGoalsWithFault store uid (some e) =
      .serverError "Internal Server Error" e
  ∧ (signupWithFault ustore un em pw fid (some e)).1 =
      { status := 500, message := some "Internal Server Error", error := some e }
  ∧ loginWithFault ustore un pw secret now (some e) =
      { status := 500, message := some "Internal Server Error", error := some e } :=
  ⟨rfl, rfl, rfl⟩

/-- C9 counterexample.  The claim states the accepted `type` enumeration
as `weight-loss, muscle-gain, endurance, other`; the schema's `enum` is
`['weight loss', 'muscle gain', 'endurance', 'other']` (spaces, not
hyphens), so a payload with the claim's own `"weight-loss"` is rejected
with 400 while `"weight loss"` is the accepted spelling. -/
theorem claim9_counterexample :
    createGoal [] 1
      { name := some "Run 5k", type := some "weight-loss",
        startDate := some 0, endDate := some 1, targetValue := some 5,
        unit := some "km" } 9 0
      = (.message 400 "Invalid input data", [])
  ∧ ("weight-loss" : String) ∉ goalTypeEnum
  ∧ ("weight loss" : String) ∈ goalTypeEnum := by
  refine ⟨by decide, by decide, by decide⟩

/-- C9 amended.  Goal creation accepts a `type` exactly from the schema
enumeration `weight loss, muscle gain, endurance, other`: any payload
whose `type` is a string outside that enumeration (or absent) fails
validation and answers 400 Bad Request with nothing persisted, and every
payload that passes validation has its `type` in the enumeration and is
persisted via 201. -/
theorem claim9_type_enum_amended (store : List Goal) (uid : Nat)
    (p : GoalPayload) (fid : Nat) (now : Int) :
    (∀ t, p.type = some t → t ∉ goalTypeEnum →
      createGoal store uid p fid now = (.message 400 "Invalid input data", store))
  ∧ (p.type = none →
      createGoal store uid p fid now = (.message 400 "Invalid input data", store))
  ∧ (∀ f, validateGoal p = some f →
      f.type ∈ goalTypeEnum ∧
      createGoal store uid p fid now =
        (.goal 201 (newGoalDoc uid fid now f), store ++ [newGoalDoc uid fid now f]) ∧
      (newGoalDoc uid fid now f).type = f.type) := by
  refine ⟨?_, ?_, ?_⟩
  · intro t ht hmem
    unfold createGoal
    rw [validateGoal_bad_type p t ht hmem]
  · intro ht
    unfold createGoal
    rw [validateGoal_no_type p ht]
  · intro f hvf
    refine ⟨validateGoal_type_mem p f hvf, ?_, rfl⟩
    unfold createGoal
    rw [hvf]

/-- C9 amended witness. -/
theorem claim9_amended_witness :
    createGoal [] 1
      { name := some "Run 5k", type := some "run-fast",
        startDate := some 0, endDate := some 1, targetValue := some 5,
        unit := some "km" } 9 0
      = (.message 400 "Invalid input data", []) :=
  (claim9_type_enum_amended [] 1
    { name := some "Run 5k", type := some "run-fast",
      startDate := some 0, endDate := some 1, targetValue := some 5,
      unit := some "km" } 9 0).1 "run-fast" rfl (by decide)

/-- C10.  `getAllGoals` filters the store by the authenticated owner: the
200 body contains all and only that user's goals, and an owner with no
goals receives the 404 "No goals found for this user" outcome. -/
theorem claim10_list_goals (store : List Goal) (uid : Nat) :
    (store.filter (fun g => g.userId == uid) = [] →
      getAllGoals store uid = .message 404 "No goals found for this user")
  ∧ (store.filter (fun g => g.userId == uid) ≠ [] →
      getAllGoals store uid = .goals 200 (store.filter (fun g => g.userId == uid)) ∧
      ∀ g, g ∈ store.filter (fun g => g.userId == uid) ↔
        (g ∈ store ∧ g.userId = uid)) := by
  constructor
  · intro h
    simp [getAllGoals, h]
  · intro h
    constructor
    · simp only [getAllGoals]
      rw [if_neg (by simpa [List.isEmpty_iff] using h)]
    · intro g
      simp [List.mem_filter]

/-- C10 witness. -/
theorem claim10_witness :
    getAllGoals [] 5 = .message 404 "No goals found for this user"
  ∧ getAllGoals
      [{ _id := 1, userId := 10, name := "Run 5k", description := none,
         type := "endurance", startDate := 0, endDate := 1, targetValue := 5,
         unit := "km", progress := [], createdAt := 0, updatedAt := 0 }] 10 =
      .goals 200
        [{ _id := 1, userId := 10, name := "Run 5k", description := none,
           type := "endurance", startDate := 0, endDate := 1, targetValue := 5,
           unit := "km", progress := [], createdAt := 0, updatedAt := 0 }] :=
  ⟨(claim10_list_goals [] 5).1 rfl,
   ((claim10_list_goals
      [{ _id := 1, userId := 10, name := "Run 5k", description := none,
         type := "endurance", startDate := 0, endDate := 1, targetValue := 5,
         unit := "km", progress := [], createdAt := 0, updatedAt := 0 }] 10).2
      (by decide)).1⟩

/-- C2.  Owner scoping: for a goal `g` owned by user `A` (with `g`'s id
unique in the store, as Mongo `_id`s are), any other authenticated user
`B`'s update and delete on `g._id` answer 404 "Goal not found" — the same
response as for an id `nid` present on no document at all — and leave the
store, and in particular `g`, unchanged.  The update payload is assumed
valid, since an invalid one is rejected 400 by `runValidators` before the
store is consulted (equally for existing and nonexistent ids). -/
theorem claim2_cross_user_not_found (store : List Goal) (A B : Nat) (g : Goal)
    (p : GoalPayload) (f : GoalFields) (now : Int) (nid : Nat)
    (hg : g ∈ store) (hA : g.userId = A) (hB : B ≠ A)
    (huniq : ∀ g' ∈ store, g'._id = g._id → g' = g)
    (hv : validateGoal p = some f)
    (hnid : ∀ g' ∈ store, g'._id ≠ nid) :
    updateGoal store B g._id p now = (.message 404 "Goal not found", store)
  ∧ deleteGoal store B g._id = (.message 404 "Goal not found", store)
  ∧ updateGoal store B g._id p now = updateGoal store B nid p now
  ∧ deleteGoal store B g._id = deleteGoal store B nid
  ∧ g ∈ (updateGoal store B g._id p now).2
  ∧ g ∈ (deleteGoal store B g._id).2 := by
  have hnoB : ∀ g' ∈ store, ¬(g'._id = g._id ∧ g'.userId = B) := by
    intro g' hg' ⟨hid, huid⟩
    have hgg : g' = g := huniq g' hg' hid
    subst hgg
    exact hB (hA.symm.trans huid).symm
  have hnoN : ∀ g' ∈ store, ¬(g'._id = nid ∧ g'.userId = B) := by
    intro g' hg' ⟨hid, _⟩
    exact hnid g' hg' hid
  have hu1 : updateGoal store B g._id p now = (.message 404 "Goal not found", store) := by
    rw [updateGoal_valid store B g._id p f now hv,
      findOneAndUpdate_no_match store g._id B f now hnoB]
  have hu2 : updateGoal store B nid p now = (.message 404 "Goal not found", store) := by
    rw [updateGoal_valid store B nid p f now hv,
      findOneAndUpdate_no_match store nid B f now hnoN]
  have hd1 : deleteGoal store B g._id = (.message 404 "Goal not found", store) := by
    unfold deleteGoal
    rw [findOneAndDelete_no_match store g._id B hnoB]
  have hd2 : deleteGoal store B nid = (.message 404 "Goal not found", store) := by
    unfold deleteGoal
    rw [findOneAndDelete_no_match store nid B hnoN]
  refine ⟨hu1, hd1, hu1.trans hu2.symm, hd1.trans hd2.symm, ?_, ?_⟩
  · rw [hu1]; exact hg
  · rw [hd1]; exact hg

/-- C2 witness. -/
theorem claim2_witness :
    updateGoal
      [{ _id := 1, userId := 10, name := "Run 5k", description := none,
         type := "endurance", startDate := 0, endDate := 1, targetValue := 5,
         unit := "km", progress := [], createdAt := 0, updatedAt := 0 }] 20 1
      { name := some "Run far", type := some "endurance",
        startDate := some 0, endDate := some 2, targetValue := some 10,
        unit := some "km" } 99
      = (.message 404 "Goal not found",
         [{ _id := 1, userId := 10, name := "Run 5k", description := none,
            type := "endurance", startDate := 0, endDate := 1, targetValue := 5,
            unit := "km", progress := [], createdAt := 0, updatedAt := 0 }])
  ∧ deleteGoal
      [{ _id := 1, userId := 10, name := "Run 5k", description := none,
         type := "endurance", startDate := 0, endDate := 1, targetValue := 5,
         unit := "km", progress := [], createdAt := 0, updatedAt := 0 }] 20 1
      = (.message 404 "Goal not found",
         [{ _id := 1, userId := 10, name := "Run 5k", description := none,
            type := "endurance", startDate := 0, endDate := 1, targetValue := 5,
            unit := "km", progress := [], createdAt := 0, updatedAt := 0 }]) := by
  have h := claim2_cross_user_not_found
    [{ _id := 1, userId := 10, name := "Run 5k", description := none,
       type := "endurance", startDate := 0, endDate := 1, targetValue := 5,
       unit := "km", progress := [], createdAt := 0, updatedAt := 0 }] 10 20
    { _id := 1, userId := 10, name := "Run 5k", description := none,
      type := "endurance", startDate := 0, endDate := 1, targetValue := 5,
      unit := "km", progress := [], createdAt := 0, updatedAt := 0 }
    { name := some "Run far", type := some "endurance",
      startDate := some 0, endDate := some 2, targetValue := some 10,
      unit := some "km" }
    { name := "Run far", description := none, type := "endurance",
      startDate := 0, endDate := 2, targetValue := 10, unit := "km" }
    99 77 (by decide) (by decide) (by decide) (by decide) (by decide) (by decide)
  exact ⟨h.1, h.2.1⟩

/-- C8.  A goal update `$set`s exactly the seven mutable fields from the
(re-validated) request payload: every document in the post-update store
keeps the `_id`, `userId`, `progress` and `createdAt` of a document of the
pre-update store; a 200 response returns a record whose seven mutable
fields are the validated payload values; and a payload failing schema
validation is rejected 400 with the store untouched. -/
theorem claim8_update_frame (store : List Goal) (uid gid : Nat)
    (p : GoalPayload) (f : GoalFields) (now : Int)
    (hv : validateGoal p = some f) :
    (∀ g' ∈ (updateGoal store uid gid p now).2, ∃ g ∈ store,
      g'._id = g._id ∧ g'.userId = g.userId ∧ g'.progress = g.progress ∧
      g'.createdAt = g.createdAt)
  ∧ (∀ g, (updateGoal store uid gid p now).1 = .goal 200 g →
      g.name = f.name ∧ (f.description.isSome → g.description = f.description) ∧
      g.type = f.type ∧ g.startDate = f.startDate ∧ g.endDate = f.endDate ∧
      g.targetValue = f.targetValue ∧ g.unit = f.unit)
  ∧ (∀ q, validateGoal q = none →
      updateGoal store uid gid q now = (.message 400 "Invalid input data", store)) := by
  have hstore : (updateGoal store uid gid p now).2 =
      (findOneAndUpdate store gid uid f now).2 := by
    rw [updateGoal_valid store uid gid p f now hv]
    rcases hfu : findOneAndUpdate store gid uid f now with ⟨r, s⟩
    cases r <;> simp
  refine ⟨?_, ?_, ?_⟩
  · intro g' hg'
    rw [hstore] at hg'
    exact findOneAndUpdate_frame store gid uid f now g' hg'
  · intro g hres
    have hfind : (findOneAndUpdate store gid uid f now).1 = some g := by
      rw [updateGoal_valid store uid gid p f now hv] at hres
      rcases hfu : findOneAndUpdate store gid uid f now with ⟨r, s⟩
      rw [hfu] at hres
      cases r with
      | none => simp at hres
      | some g0 =>
        simp only [GoalResult.goal.injEq] at hres
        simpa using hres.2
    exact findOneAndUpdate_fields store gid uid f now g hfind
  · intro q hq
    unfold updateGoal
    rw [hq]

/-- C8 witness. -/
theorem claim8_witness :
    updateGoal
      [{ _id := 1, userId := 10, name := "Run 5k", description := none,
         type := "endurance", startDate := 0, endDate := 1, targetValue := 5,
         unit := "km", progress := [], createdAt := 0, updatedAt := 0 }] 10 1
      { name := some "Bad" } 99
      = (.message 400 "Invalid input data",
         [{ _id := 1, userId := 10, name := "Run 5k", description := none,
            type := "endurance", startDate := 0, endDate := 1, targetValue := 5,
            unit := "km", progress := [], createdAt := 0, updatedAt := 0 }]) :=
  (claim8_update_frame
    [{ _id := 1, userId := 10, name := "Run 5k", description := none,
       type := "endurance", startDate := 0, endDate := 1, targetValue := 5,
       unit := "km", progress := [], createdAt := 0, updatedAt := 0 }] 10 1
    { name := some "Run far", type := some "endurance",
      startDate := some 0, endDate := some 2, targetValue := some 10,
      unit := some "km" }
    { name := "Run far", description := none, type := "endurance",
      startDate := 0, endDate := 2, targetValue := 10, unit := "km" }
    99 (by decide)).2.2 { name := some "Bad" } (by decide)

/-- C3.  A token issued at login for user `su` binds exactly `su.id` when
the gate verifies it strictly before `iat + 3600` (the 1-hour expiry);
from expiry on, verification fails and is classified as expired — 401
with the `'Token expired'` message, distinct from the `'Invalid token'`
classification.  The secret is assumed free of the wire format's
separator characters, as real base64url JWT secrets and tokens are free
of spaces. -/
theorem claim3_token_lifecycle (store : List StoredUser) (un pw : String)
    (secret : List Char) (iat now : Nat) (su : StoredUser)
    (hun : 3 ≤ (jsTrim un).length) (hpw : 8 ≤ (jsTrim pw).length)
    (hfind : store.find? (fun x => x.username == un) = some su)
    (hcmp : bcryptCompare pw su.password = true)
    (hs1 : ';' ∉ secret) (hs2 : ' ' ∉ secret) :
    login store (some un) (some pw) secret iat =
      { status := 200, user := some (loginUserProjection su),
        token := some (jwtSign su.id secret iat) }
  ∧ (now < iat + 3600 →
      verifyToken (some ("Bearer".toList ++ ' ' :: jwtSign su.id secret iat))
        secret now = .proceed su.id)
  ∧ (iat + 3600 ≤ now →
      verifyToken (some ("Bearer".toList ++ ' ' :: jwtSign su.id secret iat))
        secret now = .respond 401 "Token expired")
  ∧ ("Token expired" : String) ≠ "Invalid token" := by
  have hbear := verifyToken_bearer (jwtSign su.id secret iat) secret now
    (jwtSign_no_space su.id secret iat hs2)
  have hjv := jwtVerify_jwtSign su.id secret iat now hs1
  refine ⟨?_, ?_, ?_, by decide⟩
  · simp only [login]
    rw [if_neg (show ¬(jsTrim un).length < 3 by omega),
      if_neg (show ¬(jsTrim pw).length < 8 by omega), hfind]
    simp [hcmp]
  · intro hlt
    rw [hbear, hjv, if_neg (by omega)]
  · intro hge
    rw [hbear, hjv, if_pos hge]

/-- C3 witness. -/
theorem claim3_witness :
    login [{ id := 7, username := "bob", email := "b@c.d",
             password := bcryptHash "password1" }]
        (some "bob") (some "password1") ['s'] 0 =
      { status := 200, user := some [("id", "7"), ("username", "bob")],
        token := some (jwtSign 7 ['s'] 0) }
  ∧ verifyToken (some ("Bearer".toList ++ ' ' :: jwtSign 7 ['s'] 0)) ['s'] 100 =
      .proceed 7
  ∧ verifyToken (some ("Bearer".toList ++ ' ' :: jwtSign 7 ['s'] 0)) ['s'] 3600 =
      .respond 401 "Token expired" := by
  have h1 := claim3_token_lifecycle
    [{ id := 7, username := "bob", email := "b@c.d",
       password := bcryptHash "password1" }] "bob" "password1" ['s'] 0 100
    { id := 7, username := "bob", email := "b@c.d",
      password := bcryptHash "password1" }
    (by decide) (by decide) (by decide) (by decide) (by decide) (by decide)
  have h2 := claim3_token_lifecycle
    [{ id := 7, username := "bob", email := "b@c.d",
       password := bcryptHash "password1" }] "bob" "password1" ['s'] 0 3600
    { id := 7, username := "bob", email := "b@c.d",
      password := bcryptHash "password1" }
    (by decide) (by decide) (by decide) (by decide) (by decide) (by decide)
  exact ⟨h1.1, h1.2.1 (by omega), h2.2.2.1 (by omega)⟩

/-- C5.  Two-run indistinguishability of login failures: with a
well-formed username and password, the response when no user with that
username exists is byte-for-byte the same `401 { message: 'Invalid
credentials' }` as the response when the user exists but the stored hash
does not verify against the password. -/
theorem claim5_login_failures_indistinguishable (s1 s2 : List StoredUser)
    (un pw : String) (secret : List Char) (now : Nat) (su : StoredUser)
    (hun : 3 ≤ (jsTrim un).length) (hpw : 8 ≤ (jsTrim pw).length)
    (h1 : s1.find? (fun x => x.username == un) = none)
    (h2 : s2.find? (fun x => x.username == un) = some su)
    (hcmp : bcryptCompare pw su.password = false) :
    login s1 (some un) (some pw) secret now =
      { status := 401, message := some "Invalid credentials" }
  ∧ login s2 (some un) (some pw) secret now =
      { status := 401, message := some "Invalid credentials" }
  ∧ login s1 (some un) (some pw) secret now =
      login s2 (some un) (some pw) secret now := by
  have ha : login s1 (some un) (some pw) secret now =
      { status := 401, message := some "Invalid credentials" } := by
    simp only [login]
    rw [if_neg (show ¬(jsTrim un).length < 3 by omega),
      if_neg (show ¬(jsTrim pw).length < 8 by omega), h1]
  have hb : login s2 (some un) (some pw) secret now =
      { status := 401, message := some "Invalid credentials" } := by
    simp only [login]
    rw [if_neg (show ¬(jsTrim un).length < 3 by omega),
      if_neg (show ¬(jsTrim pw).length < 8 by omega), h2]
    simp [hcmp]
  exact ⟨ha, hb, ha.trans hb.symm⟩

/-- C5 witness. -/
theorem claim5_witness :
    login [] (some "ann") (some "password1") ['s'] 0 =
      login [{ id := 3, username := "ann", email := "a@b.c",
               password := bcryptHash "otherpass99" }]
        (some "ann") (some "password1") ['s'] 0 :=
  (claim5_login_failures_indistinguishable []
    [{ id := 3, username := "ann", email := "a@b.c",
       password := bcryptHash "otherpass99" }]
    "ann" "password1" ['s'] 0
    { id := 3, username := "ann", email := "a@b.c",
      password := bcryptHash "otherpass99" }
    (by decide) (by decide) (by decide) (by decide) (by decide)).2.2

/-- C4.  No client-visible serialization of a User carries the password
hash: the signup 201 `user` projection, the login 200 `user` projection,
and the schema's `toJSON` rendering of a stored document all lack a
`password` key — while the raw stored document does carry one, so the
absence is the serializers' doing. -/
theorem claim4_password_never_serialized (store s2 : List StoredUser)
    (un em pw : Option String) (fid : Nat) (secret : List Char) (now : Nat)
    (u : StoredUser) :
    (∀ kv, (signup store un em pw fid).1.user = some kv →
      "password" ∉ kv.map Prod.fst)
  ∧ (∀ kv, (login s2 un pw secret now).user = some kv →
      "password" ∉ kv.map Prod.fst)
  ∧ "password" ∉ (userToJSON u).map Prod.fst
  ∧ "password" ∈ (userRawFields u).map Prod.fst := by
  refine ⟨?_, ?_, ?_, ?_⟩
  · intro kv hkv
    rcases signup_user_shape store un em pw fid with h | ⟨w, h⟩
    · rw [h] at hkv; cases hkv
    · rw [h] at hkv
      cases Option.some.inj hkv
      rw [signupUserProjection_keys]
      decide
  · intro kv hkv
    rcases login_user_shape s2 un pw secret now with h | ⟨w, h⟩
    · rw [h] at hkv; cases hkv
    · rw [h] at hkv
      cases Option.some.inj hkv
      rw [loginUserProjection_keys]
      decide
  · intro hmem
    rcases List.mem_map.mp hmem with ⟨kv, hkv, hfst⟩
    exact of_decide_eq_true (List.mem_filter.mp hkv).2 hfst
  · simp [userRawFields]

/-- C4 witness. -/
theorem claim4_witness :
    "password" ∉
      ([("id", "1"), ("username", "ann"), ("email", "ann@x.com")] :
        List (String × String)).map Prod.fst :=
  (claim4_password_never_serialized [] [] (some "ann") (some "ann@x.com")
    (some "password1") 1 ['s'] 0
    { id := 1, username := "a", email := "b", password := "c" }).1
    [("id", "1"), ("username", "ann"), ("email", "ann@x.com")] (by decide)

/-- C6 counterexample.  The claim splits on "header absent" versus
"header present but not of the exact two-part `Bearer <token>` form".
A present-but-empty `Authorization` header is not of that form (it does
not even split into two parts), yet JavaScript's `!authHeader` check
classifies it with the absent case: the gate answers the no-token
message, not the bad-format one. -/
theorem claim6_empty_header_counterexample :
    verifyToken (some []) ['s'] 0 = .respond 401 "No token provided"
  ∧ (jsSplit ' ' []).length = 1
  ∧ ("No token provided" : String) ≠ "Invalid token format" := by
  refine ⟨rfl, rfl, by decide⟩

/-- C6 amended.  An absent *or empty* `Authorization` header draws 401
with the no-token message; a present, nonempty header not of the exact
two-part `Bearer <token>` form draws 401 with the bad-format message; and
in every such case the downstream resource handler is never invoked. -/
theorem claim6_header_gate_amended (h : Option (List Char))
    (secret : List Char) (now : Nat) :
    ((h = none ∨ h = some []) →
      verifyToken h secret now = .respond 401 "No token provided")
  ∧ (∀ s, h = some s → s ≠ [] → ¬isBearerHeader s →
      verifyToken h secret now = .respond 401 "Invalid token format")
  ∧ ((h = none ∨ ∃ s, h = some s ∧ ¬isBearerHeader s) →
      ∀ uid, verifyToken h secret now ≠ .proceed uid) := by
  have hbad : ∀ s, s ≠ [] → ¬isBearerHeader s →
      verifyToken (some s) secret now = .respond 401 "Invalid token format" := by
    intro s hne hnb
    have hcond : (jsSplit ' ' s).length ≠ 2 ∨
        (jsSplit ' ' s).headD [] ≠ "Bearer".toList := by
      by_contra hc
      push_neg at hc
      exact hnb ((bearer_shape_iff s).mp ⟨hc.1, hc.2⟩)
    simp only [verifyToken]
    rw [if_neg hne, if_pos hcond]
  refine ⟨?_, ?_, ?_⟩
  · rintro (rfl | rfl) <;> rfl
  · intro s hs hne hnb
    rw [hs]
    exact hbad s hne hnb
  · rintro (rfl | ⟨s, rfl, hnb⟩) uid
    · simp [verifyToken]
    · by_cases hne : s = []
      · subst hne
        simp [verifyToken]
      · rw [hbad s hne hnb]
        simp

/-- C6 amended witness. -/
theorem claim6_witness :
    verifyToken none ['s'] 0 = .respond 401 "No token provided"
  ∧ verifyToken (some "Token abc".toList) ['s'] 0 =
      .respond 401 "Invalid token format" := by
  refine ⟨(claim6_header_gate_amended none ['s'] 0).1 (Or.inl rfl), ?_⟩
  exact (claim6_header_gate_amended (some "Token abc".toList) ['s'] 0).2.1
    "Token abc".toList rfl (by decide)
    (fun hb => absurd ((bearer_shape_iff "Token abc".toList).mpr hb) (by decide))

end FitLog
